import Mathlib

/-!
Verification of the task-management and memory-mapping core of an rCore-style
teaching kernel, shallowly embedded from src/os/src/task/mod.rs and
src/os/src/syscall/process.rs. The mm module (page table, memory set) and the
config/loader/timer collaborators are not part of the provided sources; the
parts of them the claims depend on are modelled from the specification and
carry a doc comment saying so. Machine integers (usize, u32) are modelled as
Nat with explicit reductions modulo 2 to the word width where the source can
overflow; Rust panics are modelled as distinguished outcomes (Option none,
KResult.kernelPanic, RunOutcome.halted).
-/

namespace RCoreTask

/-- Page size fixed at 4096 bytes. -/
def PAGE_SIZE : Nat := 4096

/-- Task status in its life cycle (task/task.rs, re-exported by src/os/src/task/mod.rs). -/
inductive TaskStatus where
  | Ready
  | Running
  | Exited
deriving DecidableEq, Repr

/-- Modelled from the spec: the mm module (not under src/) represents page permissions as a
bit-set with named flags Readable, Writable, Executable, User-accessible. -/
structure MapPermission where
  r : Bool
  w : Bool
  x : Bool
  u : Bool
deriving DecidableEq, Repr

/-- MapPermission::U, the permission set holding only the User-accessible flag. -/
def MapPermission.U : MapPermission := ⟨false, false, false, true⟩

/-- Modelled from the spec: a Memory Region (framed area) is a half-open range of virtual
page numbers together with its permission set. -/
structure MapArea where
  startVpn : Nat
  endVpn : Nat
  perm : MapPermission
deriving DecidableEq, Repr

/-- Modelled from the spec: the Memory Region Manager owns an ordered list of regions; the
page-table contents are determined by the regions, since every mapped virtual page belongs
to exactly one region. -/
structure MemorySet where
  areas : List MapArea
deriving DecidableEq, Repr

/-- VirtAddr::floor, the number of the page containing the address. -/
def vpnFloor (va : Nat) : Nat := va / PAGE_SIZE

/-- VirtAddr::ceil, the lowest page number at or above the address. -/
def vpnCeil (va : Nat) : Nat := (va + (PAGE_SIZE - 1)) / PAGE_SIZE

/-- Whether the area's page range contains the page vpn. -/
def MapArea.containsVpn (a : MapArea) (vpn : Nat) : Bool :=
  decide (a.startVpn ≤ vpn) && decide (vpn < a.endVpn)

/-- Modelled from the spec: MemorySet::check_used (mm module not under src/) is true when
the page range of [start_va, end_va) intersects the page range of some existing region. -/
def MemorySet.check_used (ms : MemorySet) (start_va end_va : Nat) : Bool :=
  ms.areas.any (fun a =>
    decide (a.startVpn < vpnCeil end_va) && decide (vpnFloor start_va < a.endVpn))

/-- Whether some existing region maps the page vpn. -/
def MemorySet.pageMapped (ms : MemorySet) (vpn : Nat) : Bool :=
  ms.areas.any (fun a => a.containsVpn vpn)

/-- Modelled from the spec: MemorySet::check_unused (mm module not under src/) is true when
the page range of [start_va, end_va) is not fully covered by existing mapped pages. -/
def MemorySet.check_unused (ms : MemorySet) (start_va end_va : Nat) : Bool :=
  (List.range' (vpnFloor start_va) (vpnCeil end_va - vpnFloor start_va)).any
    (fun vpn => !(ms.pageMapped vpn))

/-- Modelled from the spec: MemorySet::insert_framed_area (mm module not under src/) records
a new Memory Region covering the page range of [start_va, end_va) with the requested
permission set; the per-page frames and page-table entries are determined by the record. -/
def MemorySet.insert_framed_area (ms : MemorySet) (start_va end_va : Nat)
    (perm : MapPermission) : MemorySet :=
  ⟨ms.areas ++ [⟨vpnFloor start_va, vpnCeil end_va, perm⟩]⟩

/-- Modelled from the spec: MemorySet::delete_area (mm module not under src/) unmaps every
covered page and removes the Memory Region record(s) whose page range lies inside the page
range of [start_va, end_va); it no-ops on records that do not match. -/
def MemorySet.delete_area (ms : MemorySet) (start_va end_va : Nat) : MemorySet :=
  ⟨ms.areas.filter (fun a =>
    !(decide (vpnFloor start_va ≤ a.startVpn) && decide (a.endVpn ≤ vpnCeil end_va)))⟩

/-- Per-task state from task/task.rs, restricted to the fields the in-scope operations
read or write (the saved task context and trap context are opaque to all of them).
syscall_times models the fixed-size array of u32 counters indexed by syscall id as a list
of MAX_SYSCALL_NUM natural numbers below 2 to the 32. -/
structure TaskControlBlock where
  task_status : TaskStatus
  syscall_times : List Nat
  is_scheduled : Bool
  first_scheduled_time : Nat
  memory_set : MemorySet
deriving DecidableEq, Repr

instance : Inhabited TaskControlBlock :=
  ⟨⟨TaskStatus.Ready, [], false, 0, ⟨[]⟩⟩⟩

/-- The TaskManager with the UPSafeCell-guarded TaskManagerInner flattened in: total task
count num_app, the task list, and the current task index (src/os/src/task/mod.rs). -/
structure TaskManager where
  num_app : Nat
  tasks : List TaskControlBlock
  current_task : Nat
deriving DecidableEq, Repr

/-- Rust Vec indexing inner.tasks[i]; every in-scope operation uses it with an in-bounds
index (an out-of-bounds index would be a Rust panic; the theorems assume in-bounds via
explicit hypotheses where the index matters). -/
def TaskManager.task (st : TaskManager) (i : Nat) : TaskControlBlock :=
  st.tasks.getD i default

/-- Replace the task at index i. -/
def TaskManager.setTask (st : TaskManager) (i : Nat) (t : TaskControlBlock) : TaskManager :=
  { st with tasks := st.tasks.set i t }

/-- TaskManager::run_first_task: force task 0 into Running; the subsequent jump into its
context is the opaque switch primitive, so only the state effect is modelled. -/
def TaskManager.run_first_task (st : TaskManager) : TaskManager :=
  st.setTask 0 { st.task 0 with task_status := TaskStatus.Running }

/-- TaskManager::mark_current_suspended: current task status becomes Ready. -/
def TaskManager.mark_current_suspended (st : TaskManager) : TaskManager :=
  st.setTask st.current_task { st.task st.current_task with task_status := TaskStatus.Ready }

/-- TaskManager::mark_current_exited: current task status becomes Exited. -/
def TaskManager.mark_current_exited (st : TaskManager) : TaskManager :=
  st.setTask st.current_task { st.task st.current_task with task_status := TaskStatus.Exited }

/-- Whether the task in slot id has status Ready, the predicate of find_next_task. -/
def TaskManager.isReady (st : TaskManager) (id : Nat) : Bool :=
  decide ((st.task id).task_status = TaskStatus.Ready)

/-- The id sequence scanned by find_next_task: the Rust iterator
(current + 1..current + num_app + 1).map(id percent num_app), that is
(current+1+k) mod num_app for k = 0, 1, ..., num_app - 1. -/
def TaskManager.scanOrder (st : TaskManager) : List Nat :=
  (List.range st.num_app).map (fun k => (st.current_task + 1 + k) % st.num_app)

/-- TaskManager::find_next_task: the first id in the cyclic scan order whose task status
is Ready. -/
def TaskManager.find_next_task (st : TaskManager) : Option Nat :=
  st.scanOrder.find? st.isReady

/-- Outcome of a scheduling step: either a switch (with the updated manager state), or the
kernel halt that the source reaches through the all-applications-completed panic. -/
inductive RunOutcome where
  | switched (st : TaskManager)
  | halted
deriving DecidableEq, Repr

/-- TaskManager::run_next_task: if find_next_task yields a task, set it Running, make it
current and switch to it; otherwise the kernel halts (panic in the source). -/
def TaskManager.run_next_task (st : TaskManager) : RunOutcome :=
  match st.find_next_task with
  | some next =>
      RunOutcome.switched
        { st with
          tasks := st.tasks.set next { st.task next with task_status := TaskStatus.Running },
          current_task := next }
  | none => RunOutcome.halted

/-- Module-level suspend_current_and_run_next: mark_current_suspended then run_next_task. -/
def TaskManager.suspend_current_and_run_next (st : TaskManager) : RunOutcome :=
  st.mark_current_suspended.run_next_task

/-- Module-level exit_current_and_run_next: mark_current_exited then run_next_task. -/
def TaskManager.exit_current_and_run_next (st : TaskManager) : RunOutcome :=
  st.mark_current_exited.run_next_task

/-- TaskManager::schedule_mark with the get_time_ms sample passed explicitly: when the
current task's is_scheduled flag is still unset, set it and record the time; the source
guards the whole body with if not is_scheduled, transcribed here with the branches
swapped. -/
def TaskManager.schedule_mark (st : TaskManager) (now : Nat) : TaskManager :=
  let t := st.task st.current_task
  if t.is_scheduled then st
  else st.setTask st.current_task { t with is_scheduled := true, first_scheduled_time := now }

/-- TaskManager::record_this_call: tasks[current].syscall_times[syscall_id] += 1. The u32
increment is reduced modulo 2 to the 32; the array indexing has no bounds check, so a
syscall_id at or beyond the array length is the Rust index panic, modelled as none. -/
def TaskManager.record_this_call (st : TaskManager) (syscall_id : Nat) : Option TaskManager :=
  let t := st.task st.current_task
  if syscall_id < t.syscall_times.length then
    some (st.setTask st.current_task
      { t with syscall_times :=
          t.syscall_times.set syscall_id ((t.syscall_times.getD syscall_id 0 + 1) % 2 ^ 32) })
  else none

/-- TaskManager::get_current_status. -/
def TaskManager.get_current_status (st : TaskManager) : TaskStatus :=
  (st.task st.current_task).task_status

/-- TaskManager::get_currtask_syscall_time. -/
def TaskManager.get_currtask_syscall_time (st : TaskManager) : List Nat :=
  (st.task st.current_task).syscall_times

/-- TaskManager::get_currtask_first_scheduled_time. -/
def TaskManager.get_currtask_first_scheduled_time (st : TaskManager) : Nat :=
  (st.task st.current_task).first_scheduled_time

/-- TaskInfo from src/os/src/syscall/process.rs. -/
structure TaskInfo where
  status : TaskStatus
  syscall_times : List Nat
  time : Nat
deriving DecidableEq, Repr

/-- Module-level get_task_info from src/os/src/task/mod.rs with the get_time_ms sample
passed explicitly: time is the sample minus the first-scheduled time (usize subtraction,
modelled as Nat subtraction). -/
def get_task_info (st : TaskManager) (now : Nat) : TaskInfo :=
  { status := st.get_current_status,
    syscall_times := st.get_currtask_syscall_time,
    time := now - st.get_currtask_first_scheduled_time }

/-- sys_task_info from src/os/src/syscall/process.rs: the TaskInfo value it stores through
the out pointer, paired with its return value 0 (the raw pointer write itself is the
untranslated dereference, outside this state model). -/
def sys_task_info (st : TaskManager) (now : Nat) : TaskInfo × Int :=
  ({ status := st.get_current_status,
     syscall_times := st.get_currtask_syscall_time,
     time := now - st.get_currtask_first_scheduled_time }, 0)

/-- The permission set built by TaskManager::mmap from the prot bits: MapPermission::U,
or-ed with R when prot bit 0 is set, W when bit 1 is set, X when bit 2 is set. The bit
tests prot AND 1 == 1, prot AND 2 == 2, prot AND 4 == 4 are transcribed arithmetically as
prot mod 2 = 1, prot / 2 mod 2 = 1, prot / 4 mod 2 = 1. -/
def mmapPerm (prot : Nat) : MapPermission :=
  let right := MapPermission.U
  let right := if prot % 2 = 1 then { right with r := true } else right
  let right := if prot / 2 % 2 = 1 then { right with w := true } else right
  let right := if prot / 4 % 2 = 1 then { right with x := true } else right
  right

/-- TaskManager::mmap. The prot test (prot AND 7 == 0) OR (prot AND NOT 7 != 0) on usize is
transcribed as prot mod 8 = 0 or prot / 8 != 0, and the alignment test
(start_va AND 0xfff != 0) as start mod 4096 != 0. The check order follows the source: prot
bits first, then check_used on [start, start+len), then alignment, then
insert_framed_area with success. -/
def TaskManager.mmap (st : TaskManager) (start len prot : Nat) : TaskManager × Int :=
  if prot % 8 = 0 ∨ prot / 8 ≠ 0 then (st, -1)
  else
    let right := mmapPerm prot
    let t := st.task st.current_task
    let memory_set := t.memory_set
    if memory_set.check_used start (start + len) then (st, -1)
    else if start % PAGE_SIZE ≠ 0 then (st, -1)
    else
      (st.setTask st.current_task
        { t with memory_set := memory_set.insert_framed_area start (start + len) right }, 0)

/-- TaskManager::munmap. The check order follows the source: check_unused on
[start, start+len), then alignment, then delete_area with success. -/
def TaskManager.munmap (st : TaskManager) (start len : Nat) : TaskManager × Int :=
  let t := st.task st.current_task
  let memory_set := t.memory_set
  if memory_set.check_unused start (start + len) then (st, -1)
  else if start % PAGE_SIZE ≠ 0 then (st, -1)
  else
    (st.setTask st.current_task
      { t with memory_set := memory_set.delete_area start (start + len) }, 0)

/-- Modelled from the spec: the page table of the current task as find_pte exposes it (mm
module not under src/): for each virtual page number, the physical page number of its entry
when a valid mapping exists, absent otherwise. -/
structure PageTable where
  find_pte : Nat → Option Nat

/-- Result of a kernel routine that can panic: a value, or the kernel panic (which halts
the kernel rather than returning to the caller). -/
inductive KResult (α : Type) where
  | ok (a : α)
  | kernelPanic
deriving DecidableEq, Repr

/-- TaskManager::get_pa_from_va on the given page table: find_pte on the floor page of va;
on Some pte the result is the entry's physical page number shifted to the aligned physical
address plus the page offset of va; on None the source executes an unconditional panic
(the let-else branch), modelled as kernelPanic. -/
def get_pa_from_va (pt : PageTable) (va : Nat) : KResult Nat :=
  match pt.find_pte (vpnFloor va) with
  | some ppn => KResult.ok (ppn * PAGE_SIZE + va % PAGE_SIZE)
  | none => KResult.kernelPanic

/-- load_initial_info from src/os/src/syscall/process.rs: schedule_mark, then
record_this_call on the invoked syscall id, run at every syscall entry before the handler
body (the clock sample feeds schedule_mark). -/
def load_initial_info (st : TaskManager) (now syscall_id : Nat) : Option TaskManager :=
  (st.schedule_mark now).record_this_call syscall_id

/-- Modelled from the spec: the syscall dispatch path runs load_initial_info once per
syscall invocation, before the handler body (spec section 9: the counter is incremented
before the handler body runs in the shown code path). A trace is the list of
(clock sample, syscall id) pairs of one task's invocations in order. -/
def runSyscalls (st : TaskManager) (calls : List (Nat × Nat)) : Option TaskManager :=
  match calls with
  | [] => some st
  | c :: rest =>
      match load_initial_info st c.1 c.2 with
      | some stNext => runSyscalls stNext rest
      | none => none

/-- Number of tasks whose status is Running. -/
def TaskManager.countRunning (st : TaskManager) : Nat :=
  st.tasks.countP (fun t => decide (t.task_status = TaskStatus.Running))

/-- The scheduler invariant behind the at-most-one-Running property: every task slot other
than the current one is not Running. -/
def TaskManager.RunningOnlyCurrent (st : TaskManager) : Prop :=
  ∀ i, i < st.tasks.length → i ≠ st.current_task →
    (st.task i).task_status ≠ TaskStatus.Running

instance (st : TaskManager) : Decidable st.RunningOnlyCurrent := by
  unfold TaskManager.RunningOnlyCurrent
  infer_instance

/-- Boot state of a single task whose counter array has n slots: status Ready, zeroed
counters, never scheduled (modelled from the spec: a Task Control Block is constructed at
boot with zeroed bookkeeping; only the fields the claims read are populated). -/
def bootOneTask (n : Nat) : TaskManager :=
  ⟨1, [⟨TaskStatus.Ready, List.replicate n 0, false, 0, ⟨[]⟩⟩], 0⟩

/-- Concrete two-task state for the scheduler counterexample: task 0 Running and current,
task 1 Ready. -/
def twoTaskState : TaskManager :=
  ⟨2, [⟨TaskStatus.Running, [0], false, 0, ⟨[]⟩⟩, ⟨TaskStatus.Ready, [0], false, 0, ⟨[]⟩⟩], 0⟩

/-- The state run_next_task produces from twoTaskState: task 1 also Running. -/
def twoTaskStateAfter : TaskManager :=
  ⟨2, [⟨TaskStatus.Running, [0], false, 0, ⟨[]⟩⟩, ⟨TaskStatus.Running, [0], false, 0, ⟨[]⟩⟩], 1⟩

/-- Concrete one-task state whose memory set holds a single empty region record at page 2,
as created by an earlier mmap whose rounded page range is empty. -/
def emptyAreaState : TaskManager :=
  ⟨1, [⟨TaskStatus.Running, [0], false, 0, ⟨[⟨2, 2, MapPermission.U⟩]⟩⟩], 0⟩

/-- Concrete one-task state with one two-page region mapped at pages 0 and 1. -/
def mappedState : TaskManager :=
  ⟨1, [⟨TaskStatus.Running, [0], false, 0,
    ⟨[⟨0, 2, ⟨true, true, false, true⟩⟩]⟩⟩], 0⟩

end RCoreTask

namespace RCoreTask

/-! ## Helper lemmas -/

lemma task_setTask_self (st : TaskManager) (i : Nat) (t : TaskControlBlock)
    (h : i < st.tasks.length) : (st.setTask i t).task i = t := by
  simp [TaskManager.task, TaskManager.setTask, List.getD, List.getElem?_set_self, h]

lemma task_setTask_ne (st : TaskManager) (i j : Nat) (t : TaskControlBlock) (h : i ≠ j) :
    (st.setTask i t).task j = st.task j := by
  simp [TaskManager.task, TaskManager.setTask, List.getD, List.getElem?_set_ne h]

/-! ## C10: the two TaskInfo computations agree -/

/-- C10: given the same task-manager state and the same clock sample, the TaskInfo built by
module-level get_task_info equals the value sys_task_info writes through its out-pointer:
same status, same syscall_times, and time equal to the clock sample minus the task's
first-scheduled time. -/
theorem c10_task_info_agreement (st : TaskManager) (now : Nat) :
    (sys_task_info st now).1 = get_task_info st now ∧
    (get_task_info st now).status = st.get_current_status ∧
    (get_task_info st now).syscall_times = st.get_currtask_syscall_time ∧
    (get_task_info st now).time = now - st.get_currtask_first_scheduled_time :=
  ⟨rfl, rfl, rfl, rfl⟩

/-! ## C1: get_pa_from_va panics on an unmapped page -/

/-- C1 (code bug): on a virtual address whose page has no entry, get_pa_from_va does not
propagate a fault result to its caller: it reaches the unconditional panic of its let-else
branch, halting the kernel (first conjunct, the code evaluated at the failing input, an
empty page table and va 4096). On a mapped page it does return the physical address formed
from the entry's frame and the page offset (second conjunct: page 2 mapped to frame 7
translates 8200 to 7 * 4096 + 8). -/
theorem c1_get_pa_from_va_panics_on_unmapped :
    get_pa_from_va ⟨fun _ => none⟩ 4096 = KResult.kernelPanic ∧
    get_pa_from_va ⟨fun v => if v = 2 then some 7 else none⟩ 8200 =
      KResult.ok (7 * 4096 + 8) :=
  ⟨rfl, rfl⟩

/-! ## C7: schedule_mark is one-shot -/

/-- C7: schedule_mark sets the current task's first-scheduled timestamp at most once: when
the flag is already set the call leaves the whole state unchanged; when it is unset the
call sets the flag and records the clock sample; and a second call after a first one is a
no-op whatever the initial flag was. -/
theorem c7_schedule_mark_once (st : TaskManager) (now later : Nat)
    (hc : st.current_task < st.tasks.length) :
    ((st.task st.current_task).is_scheduled = true → st.schedule_mark now = st) ∧
    ((st.task st.current_task).is_scheduled = false →
      st.schedule_mark now =
        st.setTask st.current_task
          { st.task st.current_task with is_scheduled := true, first_scheduled_time := now } ∧
      ((st.schedule_mark now).task st.current_task).is_scheduled = true ∧
      ((st.schedule_mark now).task st.current_task).first_scheduled_time = now) ∧
    (st.schedule_mark now).schedule_mark later = st.schedule_mark now := by
  by_cases h : (st.task st.current_task).is_scheduled = true
  · refine ⟨fun _ => by simp [TaskManager.schedule_mark, h], fun hf => by rw [hf] at h; exact absurd h (by simp), ?_⟩
    have h1 : st.schedule_mark now = st := by simp [TaskManager.schedule_mark, h]
    rw [h1]
    simp [TaskManager.schedule_mark, h]
  · have hf : (st.task st.current_task).is_scheduled = false := by
      cases hv : (st.task st.current_task).is_scheduled
      · rfl
      · exact absurd hv h
    have h1 : st.schedule_mark now =
        st.setTask st.current_task
          { st.task st.current_task with is_scheduled := true, first_scheduled_time := now } := by
      simp [TaskManager.schedule_mark, hf]
    have hcur : (st.schedule_mark now).current_task = st.current_task := by
      rw [h1]; rfl
    have htask : (st.schedule_mark now).task st.current_task =
        { st.task st.current_task with is_scheduled := true, first_scheduled_time := now } := by
      rw [h1]; exact task_setTask_self st st.current_task _ hc
    refine ⟨fun ht => by rw [ht] at hf; exact absurd hf (by simp),
      fun _ => ⟨h1, by rw [htask], by rw [htask]⟩, ?_⟩
    have hflag : ((st.schedule_mark now).task (st.schedule_mark now).current_task).is_scheduled = true := by
      rw [hcur, htask]
    generalize hs1 : st.schedule_mark now = s1 at hflag
    simp [TaskManager.schedule_mark, hflag]

/-- Witness for C7 at a concrete unscheduled one-task state: the first call installs the
timestamp 5 and the flag. -/
theorem c7_schedule_mark_once_witness :
    (bootOneTask 4).schedule_mark 5 =
      (bootOneTask 4).setTask 0
        { (bootOneTask 4).task 0 with is_scheduled := true, first_scheduled_time := 5 } :=
  ((c7_schedule_mark_once (bootOneTask 4) 5 9 (by decide)).2.1 (by decide)).1

end RCoreTask

namespace RCoreTask

/-! ## C9: record_this_call has no bounds check; in bounds it is a single-counter increment -/

/-- C9: record_this_call indexes the current task's fixed-size counter array with no bounds
check, so a syscall_id at or beyond the array length reaches the out-of-bounds panic
(none); below the length it increments exactly the counter at syscall_id by one in u32
arithmetic (modulo 2 to the 32) and leaves every other counter, every other field of the
task, and every other task unchanged. -/
theorem c9_record_this_call_spec (st : TaskManager) (id : Nat)
    (hc : st.current_task < st.tasks.length) :
    ((st.task st.current_task).syscall_times.length ≤ id → st.record_this_call id = none) ∧
    (id < (st.task st.current_task).syscall_times.length →
      ∃ stA, st.record_this_call id = some stA ∧
        stA.num_app = st.num_app ∧
        stA.current_task = st.current_task ∧
        stA.tasks.length = st.tasks.length ∧
        (∀ i, i ≠ st.current_task → stA.task i = st.task i) ∧
        (stA.task st.current_task).task_status = (st.task st.current_task).task_status ∧
        (stA.task st.current_task).is_scheduled = (st.task st.current_task).is_scheduled ∧
        (stA.task st.current_task).first_scheduled_time
          = (st.task st.current_task).first_scheduled_time ∧
        (stA.task st.current_task).memory_set = (st.task st.current_task).memory_set ∧
        (stA.task st.current_task).syscall_times.length
          = (st.task st.current_task).syscall_times.length ∧
        (stA.task st.current_task).syscall_times.getD id 0
          = ((st.task st.current_task).syscall_times.getD id 0 + 1) % 2 ^ 32 ∧
        (∀ j, j ≠ id → (stA.task st.current_task).syscall_times.getD j 0
          = (st.task st.current_task).syscall_times.getD j 0)) := by
  constructor
  · intro hle
    simp only [TaskManager.record_this_call]
    rw [if_neg (by omega)]
  · intro hlt
    refine ⟨st.setTask st.current_task
        { st.task st.current_task with
          syscall_times := (st.task st.current_task).syscall_times.set id
            (((st.task st.current_task).syscall_times.getD id 0 + 1) % 2 ^ 32) },
      by simp only [TaskManager.record_this_call]; rw [if_pos hlt], rfl, rfl,
      by simp [TaskManager.setTask], ?_, ?_, ?_, ?_, ?_, ?_, ?_, ?_⟩
    · intro i hne
      exact task_setTask_ne st st.current_task i _ (fun h => hne h.symm)
    all_goals rw [task_setTask_self st st.current_task _ hc]
    · simp
    · simp [List.getD, List.getElem?_set_self, hlt]
    · intro j hj
      simp [List.getD, List.getElem?_set_ne (fun h => hj h.symm)]

/-- Witness for C9: on the boot one-task state with 4 counters, recording syscall 2
succeeds, and recording syscall 9 hits the unchecked out-of-bounds branch. -/
theorem c9_record_this_call_spec_witness :
    (bootOneTask 4).record_this_call 9 = none :=
  (c9_record_this_call_spec (bootOneTask 4) 9 (by decide)).1 (by decide)

/-! ## C3: failing mmap and munmap calls leave the state unchanged -/

/-- C3: a failing mmap or munmap leaves the task-manager state (hence the current task's
region set and page table) untouched: an mmap whose range is already in use returns -1
with the state unchanged, and in general whenever either call returns -1 the state is
returned exactly as it was; a munmap whose range has an unmapped page returns -1 with the
state unchanged (no partial unmap). -/
theorem c3_failed_calls_leave_state_unchanged (st : TaskManager) (s1 l1 p1 s2 l2 : Nat) :
    ((st.task st.current_task).memory_set.check_used s1 (s1 + l1) = true →
      st.mmap s1 l1 p1 = (st, -1)) ∧
    ((st.mmap s1 l1 p1).2 = -1 → (st.mmap s1 l1 p1).1 = st) ∧
    ((st.task st.current_task).memory_set.check_unused s2 (s2 + l2) = true →
      st.munmap s2 l2 = (st, -1)) ∧
    ((st.munmap s2 l2).2 = -1 → (st.munmap s2 l2).1 = st) := by
  refine ⟨?_, ?_, ?_, ?_⟩
  · intro hused
    simp only [TaskManager.mmap]
    split_ifs with h1 <;> simp [hused]
  · simp only [TaskManager.mmap]
    split_ifs <;> simp
  · intro hunused
    simp only [TaskManager.munmap]
    rw [if_pos hunused]
  · simp only [TaskManager.munmap]
    split_ifs <;> simp

/-- Witness for C3: on the concrete mapped state, an overlapping mmap fails and changes
nothing. -/
theorem c3_failed_calls_leave_state_unchanged_witness :
    mappedState.mmap 0 4096 1 = (mappedState, -1) :=
  (c3_failed_calls_leave_state_unchanged mappedState 0 4096 1 0 4096).1 (by decide)

end RCoreTask

namespace RCoreTask

/-! ## C2: mmap validation and success behaviour -/

/-- The permission set built from prot is exactly the User flag plus the requested R, W, X
bits. -/
lemma mmapPerm_eq (prot : Nat) :
    mmapPerm prot =
      ⟨decide (prot % 2 = 1), decide (prot / 2 % 2 = 1), decide (prot / 4 % 2 = 1), true⟩ := by
  simp only [mmapPerm, MapPermission.U]
  split_ifs <;> simp_all

/-- C2: mmap returns -1 exactly on the claimed conditions, in the source's check order:
prot zero, a prot bit outside the value range {1,...,7} (a bit other than R=1, W=2, X=4,
that is prot at least 8), a start address that is not a multiple of 4096, or a range that
intersects an already-mapped region (check_used); otherwise it appends a framed area over
the page range of [start, start+len) whose permission set is exactly the User flag plus the
R, W, X bits requested by prot, and returns 0. -/
theorem c2_mmap_validation_and_success (st : TaskManager) (start len prot : Nat) :
    ((prot = 0 ∨ 8 ≤ prot ∨ start % 4096 ≠ 0 ∨
        (st.task st.current_task).memory_set.check_used start (start + len) = true) →
      st.mmap start len prot = (st, -1)) ∧
    (prot ≠ 0 → prot < 8 → start % 4096 = 0 →
      (st.task st.current_task).memory_set.check_used start (start + len) = false →
      st.mmap start len prot =
        (st.setTask st.current_task
          { st.task st.current_task with
            memory_set :=
              ⟨(st.task st.current_task).memory_set.areas ++
                [⟨start / 4096, (start + len + 4095) / 4096,
                  ⟨decide (prot % 2 = 1), decide (prot / 2 % 2 = 1),
                   decide (prot / 4 % 2 = 1), true⟩⟩]⟩ }, 0)) := by
  constructor
  · intro h
    by_cases hbad : prot % 8 = 0 ∨ prot / 8 ≠ 0
    · simp only [TaskManager.mmap]
      rw [if_pos hbad]
    · have hprot : prot ≠ 0 ∧ prot < 8 := by
        rcases Nat.eq_zero_or_pos prot with h0 | h0
        · exact absurd (Or.inl (by omega)) hbad
        · constructor
          · omega
          · by_contra hge
            exact hbad (Or.inr (by omega))
      simp only [TaskManager.mmap, PAGE_SIZE]
      rw [if_neg hbad]
      rcases h with h | h | h | h
      · exact absurd h hprot.1
      · omega
      · by_cases hused : (st.task st.current_task).memory_set.check_used start (start + len) = true
        · rw [if_pos hused]
        · rw [if_neg hused, if_pos h]
      · rw [if_pos h]
  · intro h0 h8 halign hused
    simp only [TaskManager.mmap, PAGE_SIZE]
    rw [if_neg (by omega), if_neg (by simp [hused]), if_neg (by omega)]
    rw [mmapPerm_eq]
    simp [MemorySet.insert_framed_area, vpnFloor, vpnCeil, PAGE_SIZE]

/-- Witness for C2: on the concrete mapped state (pages 0 and 1 in use) an mmap of one page
at address 8192 with prot = 3 succeeds and installs the R, W, User permission set, while
prot = 9 (a bit outside R, W, X) is rejected. -/
theorem c2_mmap_validation_and_success_witness :
    mappedState.mmap 8192 4096 9 = (mappedState, -1) ∧
    mappedState.mmap 8192 4096 3 =
      (mappedState.setTask 0
        { mappedState.task 0 with
          memory_set :=
            ⟨(mappedState.task 0).memory_set.areas ++
              [⟨2, 3, ⟨true, true, false, true⟩⟩]⟩ }, 0) := by
  constructor
  · exact (c2_mmap_validation_and_success mappedState 8192 4096 9).1 (by norm_num)
  · have h := (c2_mmap_validation_and_success mappedState 8192 4096 3).2
      (by norm_num) (by norm_num) (by norm_num) (by decide)
    simpa using h

end RCoreTask

namespace RCoreTask

/-! ## C4: round-robin selection -/

/-- Characterization of List.find?: it returns b exactly when b sits at some position k,
satisfies the predicate, and every earlier position fails it. -/
lemma find?_eq_some_first {α : Type} (p : α → Bool) (d : α) :
    ∀ (l : List α) (b : α),
      l.find? p = some b ↔
        ∃ k, k < l.length ∧ l.getD k d = b ∧ p b = true ∧
          ∀ j, j < k → p (l.getD j d) = false := by
  intro l
  induction l with
  | nil => intro b; simp
  | cons a tl ih =>
    intro b
    by_cases hpa : p a = true
    · rw [List.find?_cons_of_pos _ hpa]
      constructor
      · intro hab
        have hab2 : a = b := by simpa using hab
        subst hab2
        exact ⟨0, by simp, by simp, hpa, fun j hj => absurd hj (by omega)⟩
      · rintro ⟨k, hk, hgd, hpb, hfirst⟩
        cases k with
        | zero => simp at hgd; rw [hgd]
        | succ k2 =>
            have h0 := hfirst 0 (by omega)
            simp at h0
            rw [h0] at hpa
            exact absurd hpa (by simp)
    · have hpaf : p a = false := by
        cases hv : p a
        · rfl
        · exact absurd hv hpa
      rw [List.find?_cons_of_neg _ (by simp [hpaf])]
      rw [ih b]
      constructor
      · rintro ⟨k, hk, hgd, hpb, hfirst⟩
        refine ⟨k + 1, by simpa using hk, by simpa using hgd, hpb, ?_⟩
        intro j hj
        cases j with
        | zero => simpa using hpaf
        | succ j2 => simpa using hfirst j2 (by omega)
      · rintro ⟨k, hk, hgd, hpb, hfirst⟩
        cases k with
        | zero =>
            simp at hgd
            rw [hgd] at hpaf
            rw [hpaf] at hpb
            exact absurd hpb (by simp)
        | succ k2 =>
            refine ⟨k2, by simpa using hk, by simpa using hgd, hpb, ?_⟩
            intro j hj
            simpa using hfirst (j + 1) (by omega)

/-- The scan order has num_app entries. -/
lemma scanOrder_length (st : TaskManager) : st.scanOrder.length = st.num_app := by
  simp [TaskManager.scanOrder]

/-- Entry k of the scan order is (current + 1 + k) mod num_app. -/
lemma scanOrder_getD (st : TaskManager) (k : Nat) (hk : k < st.num_app) :
    st.scanOrder.getD k 0 = (st.current_task + 1 + k) % st.num_app := by
  have hlen : k < st.scanOrder.length := by simpa [scanOrder_length] using hk
  rw [List.getD_eq_getElem _ _ hlen]
  simp [TaskManager.scanOrder]

/-- Any n consecutive values starting anywhere cover all residues mod n: for id below n
there is a k below n with (c + 1 + k) mod n = id. -/
lemma cyclic_scan_covers (n c id : Nat) (hid : id < n) :
    ∃ k, k < n ∧ (c + 1 + k) % n = id := by
  have hn : 0 < n := by omega
  have hr : (c + 1) % n < n := Nat.mod_lt _ hn
  refine ⟨(id + n - (c + 1) % n) % n, Nat.mod_lt _ hn, ?_⟩
  rw [Nat.add_mod_mod, ← Nat.mod_add_mod]
  rw [Nat.add_sub_cancel' (show (c + 1) % n ≤ id + n by omega)]
  rw [Nat.add_mod_right]
  exact Nat.mod_eq_of_lt hid

end RCoreTask

namespace RCoreTask

/-- C4: find_next_task returns exactly the first Ready index in the cyclic scan order
(current+1) mod num_app, (current+2) mod num_app, ..., through all num_app slots; it
returns none exactly when no slot below num_app is Ready; and run_next_task halts the
kernel exactly when find_next_task returns none (otherwise it switches). -/
theorem c4_round_robin_selection (st : TaskManager) :
    (∀ i, st.find_next_task = some i ↔
      ∃ k, k < st.num_app ∧ i = (st.current_task + 1 + k) % st.num_app ∧
        st.isReady i = true ∧
        ∀ j, j < k → st.isReady ((st.current_task + 1 + j) % st.num_app) = false) ∧
    (st.find_next_task = none ↔ ∀ id, id < st.num_app → st.isReady id = false) ∧
    (st.run_next_task = RunOutcome.halted ↔ st.find_next_task = none) := by
  refine ⟨?_, ?_, ?_⟩
  · intro i
    rw [TaskManager.find_next_task, find?_eq_some_first st.isReady 0]
    constructor
    · rintro ⟨k, hk, hgd, hpb, hfirst⟩
      have hk2 : k < st.num_app := by simpa [scanOrder_length] using hk
      refine ⟨k, hk2, ?_, hpb, ?_⟩
      · rw [← hgd, scanOrder_getD st k hk2]
      · intro j hj
        have hj2 := hfirst j hj
        rwa [scanOrder_getD st j (by omega)] at hj2
    · rintro ⟨k, hk2, hi, hpb, hfirst⟩
      refine ⟨k, by simpa [scanOrder_length] using hk2, ?_, hpb, ?_⟩
      · rw [scanOrder_getD st k hk2, hi]
      · intro j hj
        rw [scanOrder_getD st j (by omega)]
        exact hfirst j hj
  · rw [TaskManager.find_next_task, List.find?_eq_none]
    constructor
    · intro h id hid
      obtain ⟨k, hk, hkid⟩ := cyclic_scan_covers st.num_app st.current_task id hid
      have hmem : id ∈ st.scanOrder := by
        rw [TaskManager.scanOrder]
        exact List.mem_map.mpr ⟨k, List.mem_range.mpr hk, hkid⟩
      have hnr := h id hmem
      cases hv : st.isReady id
      · rfl
      · exact absurd hv hnr
    · intro h x hx
      rw [TaskManager.scanOrder] at hx
      obtain ⟨k, hk, rfl⟩ := List.mem_map.mp hx
      have hkr : k < st.num_app := List.mem_range.mp hk
      have hlt : (st.current_task + 1 + k) % st.num_app < st.num_app :=
        Nat.mod_lt _ (by omega)
      simp [h _ hlt]
  · rw [TaskManager.run_next_task]
    cases h : st.find_next_task <;> simp

/-- Witness for C4 on the concrete two-task state (task 0 Running and current, task 1
Ready): the scan starting at slot 1 selects task 1. -/
theorem c4_round_robin_selection_witness :
    twoTaskState.find_next_task = some 1 :=
  ((c4_round_robin_selection twoTaskState).1 1).mpr
    ⟨0, by decide, by decide, by decide, fun j hj => absurd hj (by omega)⟩

end RCoreTask

namespace RCoreTask

/-! ## C8: at most one Running task -/

/-- A predicate that fails at every index other than j holds for at most one element. -/
lemma countP_le_one_of_unique {α : Type} [Inhabited α] (p : α → Bool) :
    ∀ (l : List α) (j : Nat),
      (∀ i, i < l.length → i ≠ j → p (l.getD i default) = false) →
      l.countP p ≤ 1 := by
  intro l
  induction l with
  | nil => intro j _; simp
  | cons a tl ih =>
    intro j h
    rw [List.countP_cons]
    cases j with
    | zero =>
        have htl : tl.countP p = 0 := by
          rw [List.countP_eq_zero]
          intro x hx
          obtain ⟨i, hi, rfl⟩ := List.mem_iff_getElem.mp hx
          have h2 := h (i + 1) (by simp only [List.length_cons]; omega) (by omega)
          rw [List.getD_cons_succ] at h2
          rw [List.getD_eq_getElem _ _ hi] at h2
          simp [h2]
        rw [htl]
        split <;> omega
    | succ j2 =>
        have hpa : p a = false := by
          have h0 := h 0 (by simp) (by omega)
          rwa [List.getD_cons_zero] at h0
        have h2 := ih j2 (fun i hi hij => by
          have h3 := h (i + 1) (by simp only [List.length_cons]; omega) (by omega)
          rwa [List.getD_cons_succ] at h3)
        rw [hpa]
        simpa using h2

/-- Replacing an entry leaves the values read at every other index unchanged. -/
lemma getD_set_ne {α : Type} (l : List α) (i j : Nat) (a d : α) (h : i ≠ j) :
    (l.set i a).getD j d = l.getD j d := by
  simp [List.getD, List.getElem?_set_ne h]

/-- A state where every Running task is the current one has at most one Running task. -/
lemma countRunning_le_one (st2 : TaskManager) (hinv2 : st2.RunningOnlyCurrent) :
    st2.countRunning ≤ 1 := by
  apply countP_le_one_of_unique _ _ st2.current_task
  intro i hi hine
  have hne := hinv2 i hi hine
  simp only [TaskManager.task] at hne
  simpa using hne

/-- run_next_task launched from a state where no task is Running (as at both of its call
sites, right after mark_current_suspended or mark_current_exited) yields a state where only
the newly current task can be Running, hence at most one Running task. -/
lemma run_next_task_preserves (st : TaskManager)
    (hnone : ∀ i, i < st.tasks.length → (st.task i).task_status ≠ TaskStatus.Running) :
    ∀ stA, st.run_next_task = RunOutcome.switched stA →
      stA.RunningOnlyCurrent ∧ stA.countRunning ≤ 1 := by
  intro stA hrun
  cases hfind : st.find_next_task with
  | none =>
      simp [TaskManager.run_next_task, hfind] at hrun
  | some next =>
      simp only [TaskManager.run_next_task, hfind] at hrun
      injection hrun with h
      subst h
      refine (fun hroc => ⟨hroc, countRunning_le_one _ hroc⟩) ?_
      intro i hi hine
      replace hine : i ≠ next := hine
      simp only [List.length_set] at hi
      simp only [TaskManager.task]
      rw [getD_set_ne _ _ _ _ _ (fun hh => hine hh.symm)]
      have hgoal := hnone i hi
      simp only [TaskManager.task] at hgoal
      exact hgoal

/-- Setting the current task to a non-Running status empties the Running set, given that
only the current task could have been Running. -/
lemma setTask_current_not_running (st : TaskManager) (t : TaskControlBlock)
    (hc : st.current_task < st.tasks.length)
    (hinv : st.RunningOnlyCurrent)
    (ht : t.task_status ≠ TaskStatus.Running) :
    ∀ i, i < (st.setTask st.current_task t).tasks.length →
      ((st.setTask st.current_task t).task i).task_status ≠ TaskStatus.Running := by
  intro i hi
  by_cases hic : i = st.current_task
  · subst hic
    rw [task_setTask_self st _ t hc]
    exact ht
  · rw [task_setTask_ne st _ i t (fun h => hic h.symm)]
    exact hinv i (by simpa [TaskManager.setTask] using hi) hic

/-- C8 (amended): from any state where every Running task is the current one (established
at boot by run_first_task from the all-Ready boot state), there is at most one Running
task, and mark_current_suspended, mark_current_exited and the two public compositions
suspend_current_and_run_next and exit_current_and_run_next all preserve the property; bare
run_next_task preserves it under the precondition that no task is Running, which holds at
both of its call sites (right after the mark), but not in general. -/
theorem c8_at_most_one_running (st : TaskManager)
    (hc : st.current_task < st.tasks.length) (hinv : st.RunningOnlyCurrent) :
    st.countRunning ≤ 1 ∧
    st.mark_current_suspended.RunningOnlyCurrent ∧
    st.mark_current_exited.RunningOnlyCurrent ∧
    (∀ stA, st.suspend_current_and_run_next = RunOutcome.switched stA →
      stA.RunningOnlyCurrent ∧ stA.countRunning ≤ 1) ∧
    (∀ stA, st.exit_current_and_run_next = RunOutcome.switched stA →
      stA.RunningOnlyCurrent ∧ stA.countRunning ≤ 1) ∧
    ((∀ i, i < st.tasks.length → (st.task i).task_status ≠ TaskStatus.Running) →
      ∀ stA, st.run_next_task = RunOutcome.switched stA →
        stA.RunningOnlyCurrent ∧ stA.countRunning ≤ 1) ∧
    (∀ bst : TaskManager, bst.current_task = 0 →
      (∀ i, i < bst.tasks.length → (bst.task i).task_status = TaskStatus.Ready) →
      bst.run_first_task.RunningOnlyCurrent ∧ bst.run_first_task.countRunning ≤ 1) := by
  have hmark : ∀ s : TaskStatus, s ≠ TaskStatus.Running →
      ∀ t : TaskControlBlock, t.task_status = s →
      (st.setTask st.current_task t).RunningOnlyCurrent := by
    intro s hs t ht i hi hine
    have hcur : (st.setTask st.current_task t).current_task = st.current_task := rfl
    rw [hcur] at hine
    rw [task_setTask_ne st _ i t (fun h => hine h.symm)]
    exact hinv i (by simpa [TaskManager.setTask] using hi) hine
  refine ⟨?_, ?_, ?_, ?_, ?_, ?_, ?_⟩
  · exact countRunning_le_one st hinv
  · exact hmark TaskStatus.Ready (by simp) _ rfl
  · exact hmark TaskStatus.Exited (by simp) _ rfl
  · intro stA hrun
    exact run_next_task_preserves st.mark_current_suspended
      (setTask_current_not_running st _ hc hinv (by simp)) stA hrun
  · intro stA hrun
    exact run_next_task_preserves st.mark_current_exited
      (setTask_current_not_running st _ hc hinv (by simp)) stA hrun
  · intro hnone stA hrun
    exact run_next_task_preserves st hnone stA hrun
  · intro bst h0 hready
    have hother : ∀ i, i < bst.tasks.length → i ≠ 0 →
        (bst.run_first_task.task i).task_status = TaskStatus.Ready := by
      intro i hi hine
      rw [TaskManager.run_first_task, task_setTask_ne bst 0 i _ (fun h => hine h.symm)]
      exact hready i hi
    have hroc : bst.run_first_task.RunningOnlyCurrent := by
      intro i hi hine
      have hine2 : i ≠ 0 := by
        simpa [TaskManager.run_first_task, TaskManager.setTask, h0] using hine
      have hi2 : i < bst.tasks.length := by
        simpa [TaskManager.run_first_task, TaskManager.setTask] using hi
      intro hcon
      have hst := hother i hi2 hine2
      rw [hcon] at hst
      exact absurd hst (by simp)
    exact ⟨hroc, countRunning_le_one _ hroc⟩

/-- Witness for C8 at a concrete state: from the two-task boot state, the suspend
composition keeps at most one Running task. -/
theorem c8_at_most_one_running_witness :
    (⟨2, [⟨TaskStatus.Ready, [0], false, 0, ⟨[]⟩⟩,
      ⟨TaskStatus.Running, [0], false, 0, ⟨[]⟩⟩], 1⟩ : TaskManager).countRunning ≤ 1 :=
  ((c8_at_most_one_running twoTaskState (by decide) (by decide)).2.2.2.1
    ⟨2, [⟨TaskStatus.Ready, [0], false, 0, ⟨[]⟩⟩,
      ⟨TaskStatus.Running, [0], false, 0, ⟨[]⟩⟩], 1⟩ (by decide)).2

/-- C8 counterexample: in the reachable boot state with task 0 Running and current and
task 1 Ready, bare run_next_task (one of the operations the claim lists) selects task 1
and sets it Running without demoting task 0, leaving two Running tasks. -/
theorem c8_two_running_counterexample :
    twoTaskState.countRunning = 1 ∧
    twoTaskState.run_next_task = RunOutcome.switched twoTaskStateAfter ∧
    twoTaskStateAfter.countRunning = 2 := by decide

end RCoreTask

namespace RCoreTask

/-! ## C5: mmap followed by munmap of the same range -/

/-- Writing back the value already stored at an in-bounds index is a no-op. -/
lemma set_getD_self {α : Type} [Inhabited α] (l : List α) (i : Nat) (h : i < l.length) :
    l.set i (l.getD i default) = l := by
  apply List.ext_getElem (by simp)
  intro n h1 h2
  by_cases hn : n = i
  · subst hn
    rw [List.getElem_set_self, List.getD_eq_getElem _ _ h]
  · rw [List.getElem_set_ne (fun hh => hn hh.symm)]

/-- The success branch of mmap, explicitly: valid prot, no overlap and aligned start give
the inserted framed area and return value 0. -/
lemma mmap_success_eq (st : TaskManager) (start len prot : Nat)
    (hprot1 : prot % 8 ≠ 0) (hprot2 : prot / 8 = 0) (halign : start % 4096 = 0)
    (hused : (st.task st.current_task).memory_set.check_used start (start + len) = false) :
    st.mmap start len prot =
      (st.setTask st.current_task
        { st.task st.current_task with
          memory_set := (st.task st.current_task).memory_set.insert_framed_area
            start (start + len) (mmapPerm prot) }, 0) := by
  simp only [TaskManager.mmap, PAGE_SIZE]
  rw [if_neg (by omega), if_neg (by simp [hused]), if_neg (by omega)]

/-- The success branch of munmap, explicitly: fully-mapped range and aligned start give the
deleted area and return value 0. -/
lemma munmap_success_eq (st : TaskManager) (start len : Nat)
    (halign : start % 4096 = 0)
    (hunused : (st.task st.current_task).memory_set.check_unused start (start + len) = false) :
    st.munmap start len =
      (st.setTask st.current_task
        { st.task st.current_task with
          memory_set := (st.task st.current_task).memory_set.delete_area
            start (start + len) }, 0) := by
  simp only [TaskManager.munmap, PAGE_SIZE]
  rw [if_neg (by simp [hunused]), if_neg (by omega)]

/-- After inserting a framed area over a range, every page of that range is mapped. -/
lemma check_unused_insert (ms : MemorySet) (start_va end_va : Nat) (perm : MapPermission) :
    (ms.insert_framed_area start_va end_va perm).check_unused start_va end_va = false := by
  rw [MemorySet.check_unused, List.any_eq_false]
  intro vpn hvpn
  rw [List.mem_range'_1] at hvpn
  have hmap : (ms.insert_framed_area start_va end_va perm).pageMapped vpn = true := by
    simp only [MemorySet.pageMapped, MemorySet.insert_framed_area, List.any_append,
      List.any_cons, List.any_nil]
    have h1 : MapArea.containsVpn ⟨vpnFloor start_va, vpnCeil end_va, perm⟩ vpn = true := by
      simp only [MapArea.containsVpn, Bool.and_eq_true, decide_eq_true_eq]
      omega
    simp [h1]
  simp [hmap]

/-- Deleting the range just inserted removes exactly the new record: the old records are
kept because a nonempty record inside the range would have made check_used true, and empty
records inside the range are excluded by hypothesis. -/
lemma delete_area_insert_roundtrip (ms : MemorySet) (start_va end_va : Nat)
    (perm : MapPermission)
    (hused : ms.check_used start_va end_va = false)
    (hnoempty : ∀ a ∈ ms.areas,
      ¬(vpnFloor start_va ≤ a.startVpn ∧ a.endVpn ≤ vpnCeil end_va ∧
        a.endVpn ≤ a.startVpn)) :
    (ms.insert_framed_area start_va end_va perm).delete_area start_va end_va = ms := by
  rw [MemorySet.check_used, List.any_eq_false] at hused
  simp only [MemorySet.delete_area, MemorySet.insert_framed_area]
  rw [List.filter_append]
  have hnew : List.filter
      (fun a : MapArea => !(decide (vpnFloor start_va ≤ a.startVpn) &&
        decide (a.endVpn ≤ vpnCeil end_va)))
      [⟨vpnFloor start_va, vpnCeil end_va, perm⟩] = [] := by
    simp
  have hkeep : ms.areas.filter
      (fun a : MapArea => !(decide (vpnFloor start_va ≤ a.startVpn) &&
        decide (a.endVpn ≤ vpnCeil end_va))) = ms.areas := by
    rw [List.filter_eq_self]
    intro a ha
    have h1 := hused a ha
    have h2 := hnoempty a ha
    simp only [Bool.and_eq_true, decide_eq_true_eq, not_and] at h1
    simp only [Bool.not_eq_true', Bool.and_eq_false_iff, decide_eq_false_iff_not]
    omega
  rw [hnew, hkeep, List.append_nil]

/-- C5 counterexample: the state emptyAreaState holds an empty region record at page 2
(created by an earlier mmap whose page range rounded to nothing). The two-page request at
address 0 satisfies every hypothesis of the claim: aligned start, valid prot, range not in
use; mmap then munmap of the identical range both return 0, yet the region set afterwards
has lost the empty record, so it differs from the set before the mmap. -/
theorem c5_roundtrip_counterexample :
    (0 : Nat) % 4096 = 0 ∧
    (emptyAreaState.task 0).memory_set.check_used 0 (0 + 8192) = false ∧
    (emptyAreaState.mmap 0 8192 1).2 = 0 ∧
    ((emptyAreaState.mmap 0 8192 1).1.munmap 0 8192).2 = 0 ∧
    (((emptyAreaState.mmap 0 8192 1).1.munmap 0 8192).1.task 0).memory_set
      ≠ (emptyAreaState.task 0).memory_set := by decide

/-- munmap applied to the state mmap just produced removes exactly the inserted record and
returns the original state. -/
lemma munmap_after_mmap (st : TaskManager) (start len prot : Nat)
    (hc : st.current_task < st.tasks.length)
    (halign : start % 4096 = 0)
    (hused : (st.task st.current_task).memory_set.check_used start (start + len) = false)
    (hnoempty : ∀ a ∈ (st.task st.current_task).memory_set.areas,
      ¬(vpnFloor start ≤ a.startVpn ∧ a.endVpn ≤ vpnCeil (start + len) ∧
        a.endVpn ≤ a.startVpn)) :
    (st.setTask st.current_task
      { st.task st.current_task with
        memory_set := (st.task st.current_task).memory_set.insert_framed_area
          start (start + len) (mmapPerm prot) }).munmap start len = (st, 0) := by
  set t1 : TaskControlBlock :=
    { st.task st.current_task with
      memory_set := (st.task st.current_task).memory_set.insert_framed_area
        start (start + len) (mmapPerm prot) } with ht1
  set st1 := st.setTask st.current_task t1 with hst1
  have hc1 : st1.current_task = st.current_task := rfl
  have htask1 : st1.task st1.current_task = t1 := task_setTask_self st st.current_task t1 hc
  have hunused1 : (st1.task st1.current_task).memory_set.check_unused
      start (start + len) = false := by
    rw [htask1, ht1]
    exact check_unused_insert _ start (start + len) (mmapPerm prot)
  rw [munmap_success_eq st1 start len halign hunused1]
  rw [htask1]
  have hdel : t1.memory_set.delete_area start (start + len)
      = (st.task st.current_task).memory_set := by
    rw [ht1]
    exact delete_area_insert_roundtrip _ start (start + len) (mmapPerm prot) hused hnoempty
  rw [hdel]
  have hback : ({ t1 with memory_set := (st.task st.current_task).memory_set }
      : TaskControlBlock) = st.task st.current_task := by
    rw [ht1]
  rw [hback, hc1, hst1]
  simp only [TaskManager.setTask, List.set_set]
  rw [TaskManager.task, set_getD_self st.tasks st.current_task hc]

/-- C5 (amended): for a page-aligned start, a valid prot and a range that no existing
region intersects, mmap then munmap of the identical range both return 0 and restore the
task-manager state (hence the region set) exactly, provided additionally that no empty
region record (a record covering zero pages, creatable only by an mmap whose page range
rounds to nothing and invisible to check_used) lies within the page range. -/
theorem c5_roundtrip_restores_state (st : TaskManager) (start len prot : Nat)
    (hc : st.current_task < st.tasks.length)
    (halign : start % 4096 = 0) (hprot0 : prot ≠ 0) (hprot8 : prot < 8)
    (hused : (st.task st.current_task).memory_set.check_used start (start + len) = false)
    (hnoempty : ∀ a ∈ (st.task st.current_task).memory_set.areas,
      ¬(vpnFloor start ≤ a.startVpn ∧ a.endVpn ≤ vpnCeil (start + len) ∧
        a.endVpn ≤ a.startVpn)) :
    (st.mmap start len prot).2 = 0 ∧
    ((st.mmap start len prot).1.munmap start len).2 = 0 ∧
    ((st.mmap start len prot).1.munmap start len).1 = st := by
  have hm := mmap_success_eq st start len prot (by omega) (by omega) halign hused
  have hmm := munmap_after_mmap st start len prot hc halign hused hnoempty
  rw [hm]
  exact ⟨rfl, by rw [hmm], by rw [hmm]⟩

/-- Witness for C5 on the concrete mapped state (pages 0 and 1 in use): mapping one fresh
page at address 8192 and unmapping it again restores the state exactly. -/
theorem c5_roundtrip_restores_state_witness :
    ((mappedState.mmap 8192 4096 3).1.munmap 8192 4096).1 = mappedState :=
  (c5_roundtrip_restores_state mappedState 8192 4096 3 (by decide) (by decide)
    (by decide) (by decide) (by decide) (by decide)).2.2

end RCoreTask

namespace RCoreTask

/-! ## C6: syscall counters along a trace -/

/-- Reading any slot of a zeroed counter array gives zero. -/
lemma getD_replicate_zero (n j : Nat) : (List.replicate n (0 : Nat)).getD j 0 = 0 := by
  by_cases h : j < n
  · rw [List.getD_eq_getElem _ _ (by simpa using h)]
    simp
  · rw [List.getD_eq_default _ _ (by simpa using Nat.le_of_not_lt h)]

/-- One syscall entry (load_initial_info): schedule_mark does not touch the counters, and
record_this_call bumps exactly the invoked id, so the whole entry succeeds on an in-range
id and increments that counter by one modulo 2 to the 32. -/
lemma load_initial_info_spec (st : TaskManager) (now id : Nat)
    (hc : st.current_task < st.tasks.length)
    (hid : id < (st.task st.current_task).syscall_times.length) :
    ∃ st2, load_initial_info st now id = some st2 ∧
      st2.tasks.length = st.tasks.length ∧
      st2.current_task = st.current_task ∧
      (st2.task st2.current_task).syscall_times.length
        = (st.task st.current_task).syscall_times.length ∧
      (st2.task st2.current_task).syscall_times.getD id 0
        = ((st.task st.current_task).syscall_times.getD id 0 + 1) % 2 ^ 32 ∧
      (∀ j, j ≠ id → (st2.task st2.current_task).syscall_times.getD j 0
        = (st.task st.current_task).syscall_times.getD j 0) := by
  obtain ⟨hl1, hc1, hsys1⟩ : (st.schedule_mark now).tasks.length = st.tasks.length ∧
      (st.schedule_mark now).current_task = st.current_task ∧
      ((st.schedule_mark now).task st.current_task).syscall_times
        = (st.task st.current_task).syscall_times := by
    by_cases h : (st.task st.current_task).is_scheduled = true
    · simp [TaskManager.schedule_mark, h]
    · have hf : (st.task st.current_task).is_scheduled = false := by
        cases hv : (st.task st.current_task).is_scheduled
        · rfl
        · exact absurd hv h
      have hsm : st.schedule_mark now =
          st.setTask st.current_task
            { st.task st.current_task with
              is_scheduled := true, first_scheduled_time := now } := by
        simp [TaskManager.schedule_mark, hf]
      rw [hsm]
      refine ⟨by simp [TaskManager.setTask], rfl, ?_⟩
      rw [task_setTask_self st st.current_task _ hc]
  have hc1lt : (st.schedule_mark now).current_task < (st.schedule_mark now).tasks.length := by
    rw [hl1, hc1]; exact hc
  have hidlt : id < ((st.schedule_mark now).task
      (st.schedule_mark now).current_task).syscall_times.length := by
    rw [hc1, hsys1]; exact hid
  refine ⟨(st.schedule_mark now).setTask (st.schedule_mark now).current_task
      { (st.schedule_mark now).task (st.schedule_mark now).current_task with
        syscall_times := ((st.schedule_mark now).task
            (st.schedule_mark now).current_task).syscall_times.set id
          ((((st.schedule_mark now).task
              (st.schedule_mark now).current_task).syscall_times.getD id 0 + 1) % 2 ^ 32) },
    ?_, ?_, ?_, ?_, ?_, ?_⟩
  · rw [load_initial_info, TaskManager.record_this_call]
    rw [if_pos hidlt]
  · simp [TaskManager.setTask, hl1]
  · simpa using hc1
  · rw [show ((st.schedule_mark now).setTask (st.schedule_mark now).current_task _).current_task
        = (st.schedule_mark now).current_task from rfl,
      task_setTask_self _ _ _ hc1lt]
    simp only [List.length_set]
    rw [hc1, hsys1]
  · rw [show ((st.schedule_mark now).setTask (st.schedule_mark now).current_task _).current_task
        = (st.schedule_mark now).current_task from rfl,
      task_setTask_self _ _ _ hc1lt]
    simp only []
    rw [List.getD_eq_getElem _ _ (by simpa using hidlt), List.getElem_set_self]
    rw [hc1, hsys1]
  · intro j hj
    rw [show ((st.schedule_mark now).setTask (st.schedule_mark now).current_task _).current_task
        = (st.schedule_mark now).current_task from rfl,
      task_setTask_self _ _ _ hc1lt]
    simp only []
    rw [getD_set_ne _ _ _ _ _ (fun hh => hj hh.symm)]
    rw [hc1, hsys1]

/-- Running a trace of in-range syscall ids from any state: every entry succeeds and each
counter k ends at its start value plus the number of occurrences of k in the trace, modulo
2 to the 32. -/
lemma runSyscalls_spec (st : TaskManager) (calls : List (Nat × Nat))
    (hc : st.current_task < st.tasks.length)
    (hall : ∀ c ∈ calls, c.2 < (st.task st.current_task).syscall_times.length)
    (hbound : ∀ j, (st.task st.current_task).syscall_times.getD j 0 < 2 ^ 32) :
    ∃ stA, runSyscalls st calls = some stA ∧
      stA.tasks.length = st.tasks.length ∧
      stA.current_task = st.current_task ∧
      (stA.task stA.current_task).syscall_times.length
        = (st.task st.current_task).syscall_times.length ∧
      (∀ j, (stA.task stA.current_task).syscall_times.getD j 0 < 2 ^ 32) ∧
      ∀ k, k < (st.task st.current_task).syscall_times.length →
        (stA.task stA.current_task).syscall_times.getD k 0 =
          ((st.task st.current_task).syscall_times.getD k 0
            + (calls.map Prod.snd).count k) % 2 ^ 32 := by
  induction calls generalizing st with
  | nil =>
      refine ⟨st, rfl, rfl, rfl, rfl, hbound, ?_⟩
      intro k _
      have hb := hbound k
      simp only [List.map_nil, List.count_nil]
      omega
  | cons c rest ih =>
      obtain ⟨st2, hli, hl2, hc2, hlen2, hid2, hoth2⟩ :=
        load_initial_info_spec st c.1 c.2 hc (hall c (by simp))
      have hc2lt : st2.current_task < st2.tasks.length := by rw [hl2, hc2]; exact hc
      have hall2 : ∀ c2 ∈ rest, c2.2 < (st2.task st2.current_task).syscall_times.length := by
        intro c2 hc2m
        rw [hlen2]
        exact hall c2 (by simp [hc2m])
      have hbound2 : ∀ j, (st2.task st2.current_task).syscall_times.getD j 0 < 2 ^ 32 := by
        intro j
        by_cases hj : j = c.2
        · subst hj
          rw [hid2]
          omega
        · rw [hoth2 j hj]
          exact hbound j
      obtain ⟨stA, hrun, hlA, hcA, hlenA, hboundA, hcountA⟩ := ih st2 hc2lt hall2 hbound2
      refine ⟨stA, ?_, by omega, by rw [hcA, hc2], by rw [hlenA, hlen2], hboundA, ?_⟩
      · simp only [runSyscalls, hli] at hrun ⊢
        exact hrun
      · intro k hk
        have hk2 : k < (st2.task st2.current_task).syscall_times.length := by
          rw [hlen2]; exact hk
        have hA := hcountA k hk2
        by_cases hkc : k = c.2
        · subst hkc
          rw [hA, hid2]
          simp only [List.map_cons]
          rw [List.count_cons]
          simp only [beq_self_eq_true, if_true]
          omega
        · rw [hA, hoth2 k hkc]
          simp only [List.map_cons]
          rw [List.count_cons]
          have hbe : (c.2 == k) = false := by
            simp only [beq_eq_false_iff_ne, ne_eq]
            exact fun hh => hkc hh.symm
          rw [hbe]
          simp only [Bool.false_eq_true, if_false]
          omega

/-- C6 counterexample: from boot with no previous syscalls, one sys_task_info invocation
(syscall id 3 here) writes 1 into slot 3, although syscall 3 had previously been invoked 0
times: the dispatch path increments the counter before the handler body reads the array,
so the written tally includes the in-progress call itself. -/
theorem c6_previous_count_counterexample :
    (runSyscalls (bootOneTask 4) [(5, 3)]).map
        (fun stA => (sys_task_info stA 7).1.syscall_times.getD 3 0) = some 1 ∧
    (([] : List (Nat × Nat)).map Prod.snd).count 3 = 0 := by decide

/-- C6 (amended): after a trace of earlier syscalls and a final sys_task_info invocation
(dispatched with its own id tid), the value the handler writes into slot k equals the
number of invocations of syscall k by that task up to and including the in-progress call
itself, reduced modulo 2 to the 32 (u32 counters). -/
theorem c6_syscall_counts (n : Nat) (calls : List (Nat × Nat)) (tid now now2 k : Nat)
    (hk : k < n) (htid : tid < n) (hall : ∀ c ∈ calls, c.2 < n) :
    (runSyscalls (bootOneTask n) (calls ++ [(now, tid)])).map
        (fun stA => (sys_task_info stA now2).1.syscall_times.getD k 0)
      = some ((calls.map Prod.snd ++ [tid]).count k % 2 ^ 32) := by
  have hblen : ((bootOneTask n).task (bootOneTask n).current_task).syscall_times.length
      = n := by
    simp [bootOneTask, TaskManager.task]
  have hbget : ∀ j, ((bootOneTask n).task
      (bootOneTask n).current_task).syscall_times.getD j 0 = 0 := by
    intro j
    simp only [bootOneTask, TaskManager.task]
    exact getD_replicate_zero n j
  obtain ⟨stA, hrun, _, _, _, _, hcount⟩ :=
    runSyscalls_spec (bootOneTask n) (calls ++ [(now, tid)]) (by simp [bootOneTask])
      (by
        intro c hcm
        rw [hblen]
        rcases List.mem_append.mp hcm with h | h
        · exact hall c h
        · simp at h
          rw [h]
          exact htid)
      (by intro j; rw [hbget j]; omega)
  rw [hrun]
  rw [Option.map_some']
  have hA := hcount k (by rw [hblen]; exact hk)
  rw [hbget k] at hA
  simp only [sys_task_info, TaskManager.get_currtask_syscall_time]
  rw [hA]
  simp [List.map_append]

/-- Witness for C6: one earlier syscall with id 2, then the info call with id 3; slot 2
reads 1. -/
theorem c6_syscall_counts_witness :
    (runSyscalls (bootOneTask 4) ([(1, 2)] ++ [(5, 3)])).map
        (fun stA => (sys_task_info stA 9).1.syscall_times.getD 2 0)
      = some (([(1, 2)].map Prod.snd ++ [3]).count 2 % 2 ^ 32) :=
  c6_syscall_counts 4 [(1, 2)] 3 5 9 2 (by decide) (by decide) (by decide)

end RCoreTask
